import Mathlib

/-!
Shallow embedding of the HyperMD overlay tokenizer
(`src/mode/hypermd.ts`): the mode's `startState`, `copyState`,
`blankLine` and `token` functions, together with hand-translated
versions of every regular expression the tokenizer uses.

Lines of text are modelled as `List Char` (a CodeMirror stream never
contains a newline); the CodeMirror `StringStream` is modelled by
`HStream` (current line, scan position, lookahead line, line number).
Each JS regex is translated to a matcher `List Char → Option Nat`
returning the length of the match anchored at the head, or `none`.
All recursion is structural (explicit fuel where the JS uses `while`),
so every definition evaluates by kernel reduction.
-/

namespace HyperMD

set_option maxRecDepth 20000

/-- JS `\s` character class restricted to characters that can occur in a
CodeMirror line (no newline ever appears inside a line, but we keep the
full set for faithfulness). -/
def jsIsSpace (c : Char) : Bool :=
  c == ' ' || c == '\t' || c == '\x0b' || c == '\x0c' || c == '\r' || c == '\n' || c == '\xa0'

/-- JS `\w` character class: `[A-Za-z0-9_]`. -/
def isWordChar (c : Char) : Bool :=
  ('a' ≤ c && c ≤ 'z') || ('A' ≤ c && c ≤ 'Z') || ('0' ≤ c && c ≤ '9') || c == '_'

/-- `const possibleTokenChars = "`\\[]()<>_*~$|^@:!#+\""` (hypermd.ts line 13). -/
def possibleTokenChars : List Char :=
  ['`', '\\', '[', ']', '(', ')', '<', '>', '_', '*', '~', '$', '|', '^', '@', ':', '!', '#', '+', '\"']

/-- Length of the longest prefix of `cs` whose characters satisfy `p`. -/
def countWhile (p : Char → Bool) : List Char → Nat
  | [] => 0
  | c :: rest => if p c then countWhile p rest + 1 else 0

/-- `meanlessCharsRE = /^[^\`\\\[\]\(\)\<\>\_\*\~\$\|\^\@\:\!\#\+\"]+/`
(one or more characters that are not in `possibleTokenChars`). -/
def meanlessMatch (cs : List Char) : Option Nat :=
  let n := countWhile (fun c => !(possibleTokenChars.contains c)) cs
  if n == 0 then none else some n

/-- `listRE = /^\s*(?:[*\-+]|[0-9]+([.)]))\s+/` (from CodeMirror's source). -/
def listREMatch (cs : List Char) : Option Nat :=
  let w := countWhile jsIsSpace cs
  let rest := cs.drop w
  let bullet : Option Nat :=
    match rest with
    | [] => none
    | c :: _ =>
      if c == '*' || c == '-' || c == '+' then some 1
      else
        let d := countWhile Char.isDigit rest
        if d == 0 then none
        else
          match rest.drop d with
          | [] => none
          | c2 :: _ => if c2 == '.' || c2 == ')' then some (d + 1) else none
  match bullet with
  | none => none
  | some b =>
    let w2 := countWhile jsIsSpace (cs.drop (w + b))
    if w2 == 0 then none else some (w + b + w2)

/-- `^(?:-{3,}|={3,})$` — the setext-underline test (hypermd.ts line 210),
applied to the whole line string. -/
def setextTest (cs : List Char) : Bool :=
  (decide (3 ≤ cs.length) && cs.all (fun c => c == '-')) ||
  (decide (3 ≤ cs.length) && cs.all (fun c => c == '='))

/-- JS `String.prototype.trim`: strip `\s` from both ends. -/
def jsTrim (cs : List Char) : List Char :=
  ((cs.dropWhile jsIsSpace).reverse.dropWhile jsIsSpace).reverse

/-- `/^```/`: a literal three-backtick prefix. -/
def fenceOpenMatch (cs : List Char) : Option Nat :=
  match cs with
  | '`' :: '`' :: '`' :: _ => some 3
  | _ => none

/-- `/^```\s*$/`: three backticks then only whitespace to the end. -/
def fenceCloseMatch (cs : List Char) : Option Nat :=
  match cs with
  | '`' :: '`' :: '`' :: rest =>
    if rest.all jsIsSpace then some cs.length else none
  | _ => none

/-- `/^\>\s*/` (first blockquote marker, hypermd.ts line 226). -/
def quoteFirstMatch (cs : List Char) : Option Nat :=
  match cs with
  | '>' :: rest => some (1 + countWhile jsIsSpace rest)
  | _ => none

/-- `/^\s*\>\s*/` (further blockquote markers, hypermd.ts line 228). -/
def quoteMoreMatch (cs : List Char) : Option Nat :=
  let w := countWhile jsIsSpace cs
  match cs.drop w with
  | '>' :: rest => some (w + 1 + countWhile jsIsSpace rest)
  | _ => none

/-- `/^(#+)(?:\s|$)/` (ATX header, hypermd.ts line 253).  The matched text
includes the whitespace character when one is present. -/
def headerMatch (cs : List Char) : Option Nat :=
  let h := countWhile (fun c => c == '#') cs
  if h == 0 then none
  else
    match cs.drop h with
    | [] => some h
    | c :: _ => if jsIsSpace c then some (h + 1) else none

/-- `/^(?:\:\s*)?-+(?:\s*\:)?/` (one cell of a table title separator,
hypermd.ts line 360). -/
def tableSepContentMatch (cs : List Char) : Option Nat :=
  let pre : Nat :=
    match cs with
    | ':' :: rest => 1 + countWhile jsIsSpace rest
    | _ => 0
  let d := countWhile (fun c => c == '-') (cs.drop pre)
  if d == 0 then
    -- with the optional leading `:` group dropped, `-+` must match at the head
    let d0 := countWhile (fun c => c == '-') cs
    if d0 == 0 then none
    else
      let after := cs.drop d0
      let k := countWhile jsIsSpace after
      some (d0 + (if (after.drop k).head? == some ':' then k + 1 else 0))
  else
    let after := cs.drop (pre + d)
    let k := countWhile jsIsSpace after
    some (pre + d + (if (after.drop k).head? == some ':' then k + 1 else 0))

/-- One `\s*\:?\s*\-+\s*\:?\s*` cell of `tableTitleSepRE`, parsed
deterministically; returns the remaining input.  `none` when no `-` is
found. -/
def dashCellCore (cs : List Char) : Option (List Char) :=
  let cs := cs.drop (countWhile jsIsSpace cs)
  let cs := match cs with
    | ':' :: rest => rest.drop (countWhile jsIsSpace rest)
    | _ => cs
  let d := countWhile (fun c => c == '-') cs
  if d == 0 then none
  else
    let cs := cs.drop d
    let cs := cs.drop (countWhile jsIsSpace cs)
    let cs := match cs with
      | ':' :: rest => rest.drop (countWhile jsIsSpace rest)
      | _ => cs
    some cs

/-- Tail of `tableTitleSepRE` after the starred group:
`\s*\:?\s*\-+\s*\:?\s*\|?\s*$`. -/
def ttsTail (cs : List Char) : Bool :=
  match dashCellCore cs with
  | none => false
  | some rest =>
    match rest with
    | [] => true
    | '|' :: r2 => (r2.drop (countWhile jsIsSpace r2)).isEmpty
    | _ => false

/-- One iteration of the starred group `(?:\s*\:?\s*\-+\s*\:?\s*\|)` of
`tableTitleSepRE`; returns the remaining input after the closing `|`. -/
def ttsGroup (cs : List Char) : Option (List Char) :=
  match dashCellCore cs with
  | none => none
  | some rest =>
    match rest with
    | '|' :: r2 => some r2
    | _ => none

/-- Iterate the starred group (any number of times) and then require the
tail.  Fueled; every group iteration consumes at least two characters,
so `cs.length + 1` fuel is always enough. -/
def ttsLoop : Nat → List Char → Bool
  | 0, _ => false
  | fuel + 1, cs =>
    ttsTail cs ||
      (match ttsGroup cs with
       | some rest => ttsLoop fuel rest
       | none => false)

/-- `tableTitleSepRE = /^\s*\|?(?:\s*\:?\s*\-+\s*\:?\s*\|)*\s*\:?\s*\-+\s*\:?\s*\|?\s*$/`
(hypermd.ts line 17), the `|:-----:|:-----:|` line test.  The leading
`\s*\|?` is deterministic (no later alternative can consume a `|`), the
iteration count of the starred group is the only choice point and is
resolved by `ttsLoop`. -/
def tableTitleSepTest (cs : List Char) : Bool :=
  let rest := cs.drop (countWhile jsIsSpace cs)
  let rest := match rest with
    | '|' :: r2 => r2
    | _ => rest
  ttsLoop (rest.length + 1) rest

/-- `tableTitleSepRE.test` applied to `stream.lookAhead(1)`, which is
`undefined` when there is no following line; the regex then fails. -/
def tableTitleSepTestOpt : Option (List Char) → Bool
  | some l => tableTitleSepTest l
  | none => false

/-- `/^\s*\|/` (leading-pipe test, hypermd.ts line 393). -/
def leadingPipeTest (cs : List Char) : Bool :=
  (cs.drop (countWhile jsIsSpace cs)).head? == some '|'

/-- ``/^`[^`]*`?/`` (inline code span, hypermd.ts line 368). -/
def inlineCodeMatch (cs : List Char) : Option Nat :=
  match cs with
  | '`' :: rest =>
    let n := countWhile (fun c => c != '`') rest
    if (rest.drop n).head? == some '`' then some (1 + n + 1) else some (1 + n)
  | _ => none

/-- `/^\${1,2}/` (inline math opener, hypermd.ts line 373). -/
def dollarMatch (cs : List Char) : Option Nat :=
  match cs with
  | '$' :: '$' :: _ => some 2
  | '$' :: _ => some 1
  | _ => none

/-- `/[^\\]\$/.test(s)`: some `$` preceded by a non-backslash character. -/
def unescapedDollarTest : List Char → Bool
  | a :: b :: rest => (a != '\\' && b == '$') || unescapedDollarTest (b :: rest)
  | _ => false

/-- Maximal length matched by `/^(?:[^\$\\]+|\\.)+/` (math-mode content
skip, hypermd.ts line 142); `0` when the regex fails. -/
def mathContentLen : List Char → Nat
  | [] => 0
  | c :: rest =>
    if c == '$' then 0
    else if c == '\\' then
      match rest with
      | [] => 0
      | _ :: r2 => 2 + mathContentLen r2
    else 1 + mathContentLen rest

/-- `/^(?:[^\$\\]+|\\.)+/` as a matcher. -/
def mathContentMatch (cs : List Char) : Option Nat :=
  let n := mathContentLen cs
  if n == 0 then none else some n

/-- `/^\[([^\]]+)\]/` (link lookahead, hypermd.ts line 447), tested
without consuming. -/
def linkLookMatch (cs : List Char) : Option Nat :=
  match cs with
  | '[' :: rest =>
    let n := countWhile (fun c => c != ']') rest
    if n == 0 then none
    else if (rest.drop n).head? == some ']' then some (1 + n + 1) else none
  | _ => none

/-- `/^(?:[^\]]+)\]\:/` (footnote-name lookahead, hypermd.ts line 452). -/
def footnoteNameLookMatch (cs : List Char) : Option Nat :=
  let n := countWhile (fun c => c != ']') cs
  if n == 0 then none
  else
    match cs.drop n with
    | ']' :: ':' :: _ => some (n + 2)
    | _ => none

/-- `/^(?:[^\]]+)\](?:[^\[\(]|$)/` (bare-link lookahead, hypermd.ts
line 455). -/
def bareLookMatch (cs : List Char) : Option Nat :=
  let n := countWhile (fun c => c != ']') cs
  if n == 0 then none
  else
    match cs.drop n with
    | ']' :: [] => some (n + 1)
    | ']' :: c2 :: _ => if c2 == '[' || c2 == '(' then none else some (n + 2)
    | _ => none

/-- `/^"(?:[^"\\]|\\.)*"/` inner scan after the opening quote; returns the
match length including the closing quote. -/
def quotedGo : Nat → List Char → Option Nat
  | 0, _ => none
  | _ + 1, [] => none
  | _ + 1, '\"' :: _ => some 1
  | fuel + 1, '\\' :: rest =>
    match rest with
    | [] => none
    | _ :: r2 => (quotedGo fuel r2).map (fun n => n + 2)
  | fuel + 1, _ :: rest => (quotedGo fuel rest).map (fun n => n + 1)

/-- `/^"(?:[^"\\]|\\.)*"/` (quoted link title, hypermd.ts line 498). -/
def quotedMatch (cs : List Char) : Option Nat :=
  match cs with
  | '\"' :: rest => (quotedGo (rest.length + 1) rest).map (fun n => n + 1)
  | _ => none

/-- `/^\\(?=.)/` (escape backslash with lookahead, hypermd.ts line 524):
matches (consuming only the backslash) when a character follows. -/
def escapeMatch (cs : List Char) : Option Nat :=
  match cs with
  | '\\' :: _ :: _ => some 1
  | _ => none

/-- CodeMirror `countColumn`-style indentation of a line with the default
`tabSize = 4`: a tab advances to the next multiple of 4, any other
leading whitespace counts 1. -/
def indentationGo : List Char → Nat → Nat
  | [], col => col
  | c :: rest, col =>
    if c == '\t' then indentationGo rest (col + 4 - col % 4)
    else if jsIsSpace c then indentationGo rest (col + 1)
    else col

def indentationOf (cs : List Char) : Nat := indentationGo cs 0

/-! ## The tokenizer state -/

/-- `insideValues` (hypermd.ts lines 19-25). -/
inductive InsideV
  | nothing
  | math
  | listSpace
  | codeFence
  | tableTitleSep
deriving Repr, DecidableEq

/-- `state.extra` is a JS variable holding `null`, a string (the math
delimiter) or a number (the index into `listSpaceStack`); modelled as a
sum. -/
inductive HExtra
  | enull
  | estr (s : List Char)
  | eidx (i : Nat)
deriving Repr, DecidableEq

/-- Numeric coercion JS applies to `state.extra` in
`state.extra + 1` / `++state.extra` (`null` coerces to 0; the string
case never reaches those sites). -/
def extraNum : HExtra → Nat
  | .enull => 0
  | .eidx i => i
  | .estr _ => 0

/-- The math delimiter held in `state.extra`; the non-string cases are
unreachable when `state.inside === math` (a sentinel that matches no
input keeps the function total). -/
def extraStr : HExtra → List Char
  | .estr s => s
  | _ => ['\x00']

/-- The mode state created by `startState` (hypermd.ts lines 74-91) plus
the `combineTokens` flag introduced by the overlay addon.  `inside` uses
`Option` because the code assigns both `insideValues.nothing` (0) and
`null` to it; both are falsy in JS, which `insideFalsy` captures. -/
structure HState where
  atBeginning : Bool
  quoteLevel : Nat
  nstyle : Nat
  table : Option String
  tableCol : Nat
  tableRow : Nat
  inside : Option InsideV
  listSpaceStack : List Int
  prevLineIsEmpty : Bool
  extra : HExtra
  combineTokens : Option Bool
deriving Repr, DecidableEq

/-- JS truthiness of `state.inside`: `null` and `insideValues.nothing`
(= 0) are falsy. -/
def insideFalsy : Option InsideV → Bool
  | none => true
  | some .nothing => true
  | some _ => false

/-! `nstyleValues` (hypermd.ts lines 27-49). -/

namespace nstyleValues

def DEL : Nat := 1
def EM : Nat := 2
def STRONG : Nat := 4
def ESCAPE : Nat := 8
def LINK : Nat := 256
def LINK_URL : Nat := 512
def BARELINK : Nat := 768
def FOOTREF : Nat := 1024
def FOOTREF_BEGIN : Nat := 1280
def FOOTNOTE_NAME : Nat := 1536

end nstyleValues

/-- `HMDStyles` lookup table (hypermd.ts lines 60-71); absent keys give
`undefined`, which every use site turns into `""` via `|| ""` or skips. -/
def HMDStyles (v : Nat) : String :=
  if v == 8 then "hmd-escape "
  else if v == 256 then "hmd-link "
  else if v == 512 then "hmd-link-url "
  else if v == 768 then "hmd-barelink "
  else if v == 1024 then "hmd-barelink hmd-footref "
  else if v == 1280 then "hmd-barelink hmd-footref hmd-footref-lead "
  else if v == 1536 then "hmd-footnote line-HyperMD-footnote "
  else ""

/-- `startState` (hypermd.ts lines 74-91). -/
def startState : HState :=
  { atBeginning := true
    quoteLevel := 0
    nstyle := 0
    table := none
    tableCol := 0
    tableRow := 0
    inside := some .nothing
    listSpaceStack := []
    prevLineIsEmpty := false
    extra := .enull
    combineTokens := none }

/-- `copyState` (hypermd.ts lines 99-113): a field-by-field copy;
`listSpaceStack` is rebuilt with `.slice()` (a fresh array with the same
elements) and the overlay's `combineTokens` is not carried over. -/
def copyState (s : HState) : HState :=
  { atBeginning := s.atBeginning
    quoteLevel := s.quoteLevel
    nstyle := s.nstyle
    table := s.table
    tableCol := s.tableCol
    tableRow := s.tableRow
    inside := s.inside
    listSpaceStack := s.listSpaceStack
    prevLineIsEmpty := s.prevLineIsEmpty
    extra := s.extra
    combineTokens := none }

/-- `blankLine` (hypermd.ts lines 114-126): resets most fields and keeps
`inside`/`extra`; returns the code-block background tag exactly when
inside a code fence. -/
def blankLine (s : HState) : HState × Option String :=
  let s' : HState :=
    { s with
      atBeginning := true
      prevLineIsEmpty := true
      quoteLevel := 0
      listSpaceStack := []
      table := none
      tableCol := 0
      tableRow := 0
      nstyle := 0 }
  (s', if s'.inside == some InsideV.codeFence
       then some ("line-HyperMD-codeblock line-background-HyperMD-codeblock-bg")
       else none)

/-! ## The stream -/

/-- Model of the CodeMirror `StringStream` as the tokenizer uses it: the
current line's characters, the scan position, the following line (for
`lookAhead(1)`), and the line number (for `lineOracle.line`). -/
structure HStream where
  string : List Char
  pos : Nat
  nextLine : Option (List Char)
  line : Nat
deriving Repr, DecidableEq

def HStream.rest (st : HStream) : List Char := st.string.drop st.pos

/-- `stream.next()`: consume and return one character; no-op at end of
line (where it returns `undefined`). -/
def HStream.next (st : HStream) : Option Char × HStream :=
  match st.rest with
  | [] => (none, st)
  | c :: _ => (some c, { st with pos := st.pos + 1 })

/-- `stream.eat(ch)` with a literal character. -/
def HStream.eatCh (st : HStream) (c : Char) : Bool × HStream :=
  if st.rest.head? == some c then (true, { st with pos := st.pos + 1 }) else (false, st)

/-- `stream.match(re)` for an anchored regex modelled by `f`; consumes
the match. -/
def HStream.tryMatch (st : HStream) (f : List Char → Option Nat) : Bool × HStream :=
  match f st.rest with
  | some n => (true, { st with pos := st.pos + n })
  | none => (false, st)

/-- `stream.match(re, false)` — test without consuming. -/
def HStream.testMatch (st : HStream) (f : List Char → Option Nat) : Bool :=
  (f st.rest).isSome

/-- `stream.match(str)` with a literal string. -/
def HStream.matchLit (st : HStream) (lit : List Char) : Bool × HStream :=
  if lit.isPrefixOf st.rest then (true, { st with pos := st.pos + lit.length }) else (false, st)

def HStream.skipToEnd (st : HStream) : HStream :=
  { st with pos := st.string.length }

/-- `stream.peek()` (`undefined` at end of line). -/
def HStream.peek (st : HStream) : Option Char := st.rest.head?

/-- `/\S/.test(stream.peek())`: at end of line `peek()` is `undefined`,
which stringifies to `"undefined"` and so passes the `\S` test. -/
def HStream.peekNonSpace (st : HStream) : Bool :=
  match st.peek with
  | some c => !(jsIsSpace c)
  | none => true

/-- `/\w/.test(stream.string.charAt(stream.pos - 1))`: `charAt(-1)` and
out-of-range both give `""`, which fails the test. -/
def HStream.wordCharBefore (st : HStream) : Bool :=
  match st.pos with
  | 0 => false
  | p + 1 =>
    match st.string.get? p with
    | some c => isWordChar c
    | none => false

def HStream.indentation (st : HStream) : Nat := indentationOf st.string

/-! ## `token` -/

/-- The value of one `token(stream, state)` call: the returned tag
(`none` = JS `null`), the updated state and the updated stream. -/
structure TokRes where
  ret : Option String
  state : HState
  stream : HStream
deriving Repr, DecidableEq

/-- The `case insideValues.math` branch of `token` (hypermd.ts
lines 134-143). -/
def tokenMath (st : HStream) (s : HState) (start : Nat) : TokRes :=
  let delim := extraStr s.extra
  let prevNotBackslash : Bool :=
    start == 0 ||
      (match st.string.get? (start - 1) with
       | some c => c != '\\'
       | none => true)
  let closing := if prevNotBackslash then st.matchLit delim else (false, st)
  if closing.1 then
    { ret := some ("formatting formatting-math formatting-math-end math math-" ++ toString delim.length)
      state := { s with inside := some .nothing }
      stream := closing.2 }
  else
    let r := closing.2.tryMatch mathContentMatch
    let st2 := if r.1 then r.2 else (r.2.next).2
    { ret := some ("math math-" ++ toString delim.length), state := s, stream := st2 }

/-- The `case insideValues.codeFence` branch of `token` (hypermd.ts
lines 145-153). -/
def tokenFence (st : HStream) (s : HState) (start : Nat) : TokRes :=
  let s := { s with combineTokens := some true }
  let r := if start == 0 then st.tryMatch fenceCloseMatch else (false, st)
  if r.1 then
    { ret := some ("line-HyperMD-codeblock line-background-HyperMD-codeblock-bg line-HyperMD-codeblock-end")
      state := { s with inside := some .nothing }
      stream := r.2 }
  else
    { ret := some ("line-HyperMD-codeblock line-background-HyperMD-codeblock-bg")
      state := s
      stream := r.2.skipToEnd }

/-- The `state.listSpaceStack` rebuild at the start of a list line
(hypermd.ts lines 264-282): walk the existing levels subtracting each
required width from the measured indentation (truncating the stale
deeper levels when it runs out), push one new deeper level if
indentation remains, and push a 0-width level when the stack ended up
empty. -/
def rebuildWalk (stack : List Int) (ind : Int) (i : Nat) (fuel : Nat) : List Int × Int :=
  match fuel with
  | 0 => (stack, ind)
  | fuel + 1 =>
    if i < stack.length then
      if ind > 0 then rebuildWalk stack (ind - stack.getD i 0) (i + 1) fuel
      else (stack.take i, ind)
    else (stack, ind)

def rebuildStack (stack : List Int) (indentation : Int) : List Int :=
  let zeroLeading := stack.head? == some 0
  let r := rebuildWalk stack indentation (if zeroLeading then 1 else 0) (stack.length + 1)
  let st2 := if r.2 > 0 then r.1 ++ [r.2] else r.1
  if st2.isEmpty then [0] else st2

/-- The `while (indent_to_eat > 0)` loop of the listSpace scanner
(hypermd.ts lines 318-329): eat spaces (width 1) and tabs (width 4);
stop with `corrupted = true` on any other character (which `next()` has
already consumed) or at end of line (where `next()` consumes nothing). -/
def eatIndent : Nat → Int → HStream → HStream × Bool
  | 0, _, st => (st, false)
  | fuel + 1, ind, st =>
    if ind ≤ 0 then (st, false)
    else
      let r := st.next
      match r.1 with
      | some '\t' => eatIndent fuel (ind - 4) r.2
      | some ' ' => eatIndent fuel (ind - 1) r.2
      | _ => (r.2, true)

/-- The common part of the listSpace scanner after the zero-leading
special cases (hypermd.ts lines 315-344). -/
def listSpaceCore (st : HStream) (s : HState) (ans0 : String) (listLevel : Nat)
    (firstMet : Bool) : TokRes :=
  let indentToEat : Int :=
    match s.extra with
    | .eidx i => s.listSpaceStack.getD i 0
    | _ => 0
  let r := eatIndent (indentToEat.toNat + 1) indentToEat st
  let corrupted := r.2
  let s := if corrupted then { s with inside := none, extra := .enull } else s
  let ans := ans0 ++ "hmd-list-indent hmd-list-indent-" ++ toString (extraNum s.extra + 1)
  let ans := if firstMet then ans ++ " line-HyperMD-list-line line-HyperMD-list-line-" ++ toString listLevel else ans
  let ans := if corrupted then ans ++ " hmd-list-indent-corrupted" else ans
  let newExtra := extraNum s.extra + 1
  let s := { s with extra := .eidx newExtra }
  let s := if newExtra ≥ listLevel then { s with inside := none, extra := .enull } else s
  { ret := some ans, state := { s with combineTokens := some true }, stream := r.1 }

/-- The `if (state.inside === insideValues.listSpace)` block of `token`
(hypermd.ts lines 291-345). -/
def listSpacePart (st : HStream) (s : HState) : TokRes :=
  let listLevel := s.listSpaceStack.length
  let firstMet := s.extra == HExtra.eidx 0
  if firstMet && s.listSpaceStack.head? == some 0 then
    if listLevel == 1 then
      let s := { s with inside := none, extra := .enull, combineTokens := some true }
      let r := st.tryMatch listREMatch
      let st2 := if r.1 then r.2 else (r.2.next).2
      { ret := some ("line-HyperMD-list-line line-HyperMD-list-line-1"), state := s, stream := st2 }
    else
      listSpaceCore st { s with extra := .eidx 1 } ("hmd-list-indent-virtual ") listLevel firstMet
  else
    listSpaceCore st s ("") listLevel firstMet

/-- The `while (stream.match(/^\s*\>\s*/)) quoteLevel++` loop
(hypermd.ts line 228). -/
def quoteLoop : Nat → Nat → HStream → Nat × HStream
  | 0, n, st => (n, st)
  | fuel + 1, n, st =>
    let r := st.tryMatch quoteMoreMatch
    if r.1 then quoteLoop fuel (n + 1) r.2 else (n, st)

/-- The `if (start === 0)` line-prefix block of `token` (hypermd.ts
lines 158-288).  `.inl` is an early `return`; `.inr` falls through to
the listSpace / inline classifiers with the updated stream and state. -/
def lineStart (st : HStream) (s : HState) : TokRes ⊕ (HStream × HState) :=
  let s :=
    { s with
      atBeginning := true
      tableCol := if s.table.isSome then 0 else s.tableCol
      tableRow := if s.table.isSome then s.tableRow + 1 else s.tableRow
      inside :=
        if s.table.isSome then
          (if s.tableRow + 1 == 1 && tableTitleSepTest st.string then some .tableTitleSep
           else none)
        else s.inside }
  let indentation : Int := (st.indentation : Int)
  let rf := st.tryMatch fenceOpenMatch
  if rf.1 then
    .inl { ret := some ("line-HyperMD-codeblock line-background-HyperMD-codeblock-bg line-HyperMD-codeblock-begin")
           state := { s with combineTokens := some true, inside := some .codeFence }
           stream := rf.2 }
  else if s.listSpaceStack.length == 0 && indentation ≥ 4 then
    .inl { ret := some ("line-HyperMD-codeblock line-background-HyperMD-codeblock-indented-bg")
           state := s, stream := st.skipToEnd }
  else if setextTest st.string && !s.prevLineIsEmpty then
    let hlevel : Nat := if st.string.head? == some '=' then 1 else 2
    .inl { ret := some ("formatting line-HyperMD-header-line line-HyperMD-header-line-" ++ toString hlevel)
           state := s, stream := st.skipToEnd }
  else
    let s := { s with prevLineIsEmpty := false }
    let rq := st.tryMatch quoteFirstMatch
    if rq.1 then
      let q := quoteLoop (st.string.length + 1) 1 rq.2
      let s := { s with quoteLevel := q.1 }
      .inl { ret := some ("formatting formatting-quote formatting-quote-" ++ toString q.1 ++
                          " quote quote-" ++ toString q.1 ++
                          " line-HyperMD-quote line-HyperMD-quote-" ++ toString q.1)
             state := s, stream := q.2 }
    else if s.quoteLevel > 0 then
      .inl { ret := some ("line-HyperMD-quote line-HyperMD-quote-" ++ toString s.quoteLevel)
             state := { s with combineTokens := some true }, stream := (st.next).2 }
    else
      let rh := st.tryMatch headerMatch
      if rh.1 then
        .inl { ret := some ("line-HyperMD-header line-HyperMD-header-" ++
                            toString (countWhile (fun c => c == '#') st.string))
               state := { s with combineTokens := some true }, stream := rh.2 }
      else if s.listSpaceStack.length != 0 || st.testMatch listREMatch then
        .inr (st, { s with
                     listSpaceStack := rebuildStack s.listSpaceStack indentation
                     inside := some .listSpace
                     extra := .eidx 0 })
      else
        .inr (st, s)

/-- The emphasis toggles and the final fallback of the inline classifier
(hypermd.ts lines 534-549). -/
def emphasisPart (st : HStream) (s : HState) (ans : String) : TokRes :=
  let tryToggles : Bool := (s.nstyle &&& 0xFF) != 0 || !st.wordCharBefore
  let rStrong := if tryToggles then st.matchLit ['*', '*'] else (false, st)
  if rStrong.1 then
    { ret := some ans, state := { s with nstyle := s.nstyle ^^^ nstyleValues.STRONG }, stream := rStrong.2 }
  else
    let rStrong2 := if tryToggles then st.matchLit ['_', '_'] else (false, st)
    if rStrong2.1 then
      { ret := some ans, state := { s with nstyle := s.nstyle ^^^ nstyleValues.STRONG }, stream := rStrong2.2 }
    else
      let rEm := if tryToggles then st.eatCh '*' else (false, st)
      if rEm.1 then
        { ret := some ans, state := { s with nstyle := s.nstyle ^^^ nstyleValues.EM }, stream := rEm.2 }
      else
        let rEm2 := if tryToggles then st.eatCh '_' else (false, st)
        if rEm2.1 then
          { ret := some ans, state := { s with nstyle := s.nstyle ^^^ nstyleValues.EM }, stream := rEm2.2 }
        else
          let rDel := if tryToggles then st.matchLit ['~', '~'] else (false, st)
          if rDel.1 then
            { ret := some ans, state := { s with nstyle := s.nstyle ^^^ nstyleValues.DEL }, stream := rDel.2 }
          else
            let rm := st.tryMatch meanlessMatch
            let st2 := if rm.1 then rm.2 else (rm.2.next).2
            { ret := if ans.length != 0 then some ans else none, state := s, stream := st2 }

/-- The escape handling of the inline classifier (hypermd.ts
lines 516-532), falling through to `emphasisPart`. -/
def escapePart (st : HStream) (s : HState) (nstyle : Nat) (ans : String) : TokRes :=
  if nstyle &&& nstyleValues.ESCAPE != 0 then
    { ret := some ans, state := { s with nstyle := s.nstyle - nstyleValues.ESCAPE }, stream := (st.next).2 }
  else
    let r := st.tryMatch escapeMatch
    if r.1 then
      { ret := some (ans ++ HMDStyles nstyleValues.ESCAPE ++ "hmd-escape-backslash ")
        state := { s with nstyle := s.nstyle ||| nstyleValues.ESCAPE }
        stream := r.2 }
    else
      emphasisPart st s ans

/-- The LINK-related block of the inline classifier (hypermd.ts
lines 442-514), falling through to `escapePart` when the link sub-state
does not change. -/
def linkPart (st : HStream) (s : HState) (atB : Bool) (nstyle : Nat) (ans : String) : TokRes :=
  let ns_link := nstyle &&& 0xFF00
  if ns_link == 0 then
    if st.testMatch linkLookMatch then
      let st := (st.next).2
      let nl : Nat :=
        if atB && st.testMatch footnoteNameLookMatch then nstyleValues.FOOTNOTE_NAME
        else if st.testMatch bareLookMatch then
          (if st.peek == some '^' then nstyleValues.FOOTREF_BEGIN else nstyleValues.BARELINK)
        else nstyleValues.LINK
      { ret := some (ans ++ HMDStyles nl), state := { s with nstyle := nstyle ||| nl }, stream := st }
    else
      escapePart st s nstyle ans
  else
    let stepNl : Option Nat :=
      if ns_link == nstyleValues.FOOTREF_BEGIN then some nstyleValues.FOOTREF
      else if ns_link == nstyleValues.FOOTREF || ns_link == nstyleValues.BARELINK then
        (if (st.eatCh ']').1 then some 0 else none)
      else if ns_link == nstyleValues.FOOTNOTE_NAME then
        (if (st.matchLit [']', ':']).1 then some 0 else none)
      else if ns_link == nstyleValues.LINK then
        (if (st.eatCh ']').1 then some nstyleValues.LINK_URL else none)
      else if ns_link == nstyleValues.LINK_URL then
        (if (st.tryMatch quotedMatch).1 then none
         else if (st.eatCh ')').1 then some 0 else none)
      else none
    let stepSt : HStream :=
      if ns_link == nstyleValues.FOOTREF_BEGIN then (st.next).2
      else if ns_link == nstyleValues.FOOTREF || ns_link == nstyleValues.BARELINK then
        (st.eatCh ']').2
      else if ns_link == nstyleValues.FOOTNOTE_NAME then (st.matchLit [']', ':']).2
      else if ns_link == nstyleValues.LINK then (st.eatCh ']').2
      else if ns_link == nstyleValues.LINK_URL then
        (if (st.tryMatch quotedMatch).1 then (st.tryMatch quotedMatch).2 else (st.eatCh ')').2)
      else st
    match stepNl with
    | some nl =>
      { ret := some ans, state := { s with nstyle := nstyle &&& 0xFFFF00FF ||| nl }, stream := stepSt }
    | none => escapePart stepSt s nstyle ans

/-- The table branch of the inline classifier (hypermd.ts lines 389-419);
entered after `stream.eat('|')` succeeded. -/
def tablePart (st : HStream) (s : HState) : TokRes :=
  let isNew := s.table.isNone
  if isNew && !(leadingPipeTest st.string) && !(tableTitleSepTestOpt st.nextLine) then
    { ret := none, state := s, stream := st }
  else
    let s :=
      { s with
        table := if isNew then some ("T" ++ toString st.line) else s.table
        tableRow := if isNew then 0 else s.tableRow }
    let ans :=
      if isNew then
        "line-HyperMD-table-title " ++
          (if tableTitleSepTestOpt st.nextLine then "line-HyperMD-table-title-has_rowsep " else "")
      else ""
    let ans :=
      if s.tableCol == 0 then
        ans ++ "line-HyperMD-table_" ++ s.table.getD ("") ++ " " ++
          "line-HyperMD-table-row line-HyperMD-table-row-" ++ toString s.tableRow ++ " "
      else ans
    let ans := ans ++ "hmd-table-sep hmd-table-sep-" ++ toString s.tableCol ++ " "
    { ret := some ans, state := { s with tableCol := s.tableCol + 1 }, stream := st }

/-- The style-string initialisation from `nstyle` (hypermd.ts
lines 424-431): the loop over `nstyleStandalone` (of which only ESCAPE
has an entry in `HMDStyles`) followed by the link-state entry. -/
def styleAnsInit (nstyle : Nat) : String :=
  let ns_link := nstyle &&& 0xFF00
  let ans := ""
  let ans := if nstyle &&& nstyleValues.DEL != 0 then ans ++ HMDStyles nstyleValues.DEL else ans
  let ans := if nstyle &&& nstyleValues.EM != 0 then ans ++ HMDStyles nstyleValues.EM else ans
  let ans := if nstyle &&& nstyleValues.STRONG != 0 then ans ++ HMDStyles nstyleValues.STRONG else ans
  let ans := if nstyle &&& nstyleValues.ESCAPE != 0 then ans ++ HMDStyles nstyleValues.ESCAPE else ans
  if ns_link != 0 then ans ++ HMDStyles ns_link else ans

/-- The inline content classifier (hypermd.ts lines 350-549): runs after
line prefixes and list indents are gone. -/
def inlinePart (st : HStream) (s : HState) (start : Nat) : TokRes :=
  let atB := s.atBeginning
  let s :=
    { s with
      atBeginning := if atB && st.peekNonSpace then false else s.atBeginning
      combineTokens := some true }
  -- case insideValues.tableTitleSep
  let rts := if s.inside == some InsideV.tableTitleSep then st.tryMatch tableSepContentMatch else (false, st)
  if rts.1 then
    { ret := some ("hmd-table-title-dash line-HyperMD-table-row line-HyperMD-table-rowsep ")
      state := { s with combineTokens := some false }
      stream := rts.2 }
  else
    -- inline code
    let rc := st.tryMatch inlineCodeMatch
    if rc.1 then
      { ret := none, state := s, stream := rc.2 }
    else
      -- inline math opener: `tmp = stream.match(/^\${1,2}/)` consumes on match
      let rd := st.tryMatch dollarMatch
      let dollarLen := rd.2.pos - st.pos
      let st := rd.2
      if rd.1 && (dollarLen == 2 || unescapedDollarTest (st.string.drop (start + 1))) then
        { ret := some ("formatting formatting-math formatting-math-begin math math-" ++ toString dollarLen)
          state := { s with inside := some .math, extra := .estr (List.replicate dollarLen '$'), combineTokens := some false }
          stream := st }
      else
        -- possible table
        let canMakeTable := s.nstyle == 0 && s.listSpaceStack.length == 0 && insideFalsy s.inside
        let rp := if canMakeTable then st.eatCh '|' else (false, st)
        if rp.1 then
          tablePart rp.2 s
        else
          -- mixable (non-exclusive) styles
          linkPart st s atB s.nstyle (styleAnsInit s.nstyle)

/-- `token` (hypermd.ts lines 127-550). -/
def token (st0 : HStream) (s0 : HState) : TokRes :=
  let s := { s0 with combineTokens := none }
  let start := st0.pos
  match s.inside with
  | some .math => tokenMath st0 s start
  | some .codeFence => tokenFence st0 s start
  | _ =>
    match (if start == 0 then lineStart st0 s else .inr (st0, s)) with
    | .inl r => r
    | .inr (st, s) =>
      if s.inside == some InsideV.listSpace then listSpacePart st s
      else inlinePart st s start

/-! ## Drivers

CodeMirror feeds a document to the mode line by line: a fresh stream at
position 0 for every line, `token` repeated while input remains on the
line, and `blankLine` for a line whose text is empty. -/

/-- A fresh stream at the start of a line. -/
def mkStream (line : String) (nl : Option String) (ln : Nat) : HStream :=
  { string := line.toList, pos := 0, nextLine := nl.map String.toList, line := ln }

/-- Repeated `token` calls while characters remain (fueled; CodeMirror's
own loop aborts a tokenizer that does not advance). -/
def runCalls : Nat → HStream → HState → HStream × HState
  | 0, st, s => (st, s)
  | n + 1, st, s =>
    if st.pos < st.string.length then
      let r := token st s
      runCalls n r.stream r.state
    else (st, s)

/-- The result of the `n`-th `token` call (0-based) on a single line. -/
def tokIter (st : HStream) (s : HState) : Nat → TokRes
  | 0 => token st s
  | n + 1 =>
    let r := tokIter st s n
    token r.stream r.state

/-- `nstyle & _link_mask`: the mutually-exclusive link sub-state. -/
def linkMaskOf (n : Nat) : Nat := n &&& 0xFF00

/-- `nstyle & _style_mask`: the standalone style bits. -/
def styleMaskOf (n : Nat) : Nat := n &&& 0xFF

/-- States reachable from `startState` through the mode's operations. -/
inductive Reachable : HState → Prop
  | start : Reachable startState
  | tok {s : HState} (st : HStream) : Reachable s → Reachable (token st s).state
  | blank {s : HState} : Reachable s → Reachable (blankLine s).1
  | copy {s : HState} : Reachable s → Reachable (copyState s)

theorem runCalls_reachable (n : Nat) (st : HStream) (s : HState) (h : Reachable s) :
    Reachable (runCalls n st s).2 := by
  induction n generalizing st s h with
  | zero => exact h
  | succ n ih =>
    unfold runCalls
    split
    · exact ih _ _ (Reachable.tok st h)
    · exact h

/-! ## A reachable state on which `token` stalls

Scanning the document `"- a"`, `"   - b"`, `"\t"`, `""` leaves the mode
with `inside = listSpace`, `extra = 2` and (after the blank line) an
`listSpaceStack`: the single tab on line 3 is worth 4 columns, so
it over-satisfies the 3-wide indent level and the listSpace scanner
never reaches the last level before the line ends, leaving the stale
`inside`/`extra` pair behind; the blank line then empties the stack but
keeps both.  On the next line the scanner asks for
`listSpaceStack[2]` = `undefined`, eats nothing, and returns a tag
without advancing. -/

def scenLine1 : HStream × HState := runCalls 10 (mkStream ("- a") none 0) startState
def scenLine2 : HStream × HState := runCalls 10 (mkStream ("   - b") none 1) scenLine1.2
def scenLine3 : HStream × HState := runCalls 10 (mkStream ("\t") none 2) scenLine2.2
def scenState : HState := (blankLine scenLine3.2).1
def scenStream : HStream := mkStream ("x") none 4
def scenRes : TokRes := token scenStream scenState

theorem scenState_reachable : Reachable scenState := by
  apply Reachable.blank
  exact runCalls_reachable 10 _ _ (runCalls_reachable 10 _ _ (runCalls_reachable 10 _ _ Reachable.start))

/-! ## Claim theorems -/

/-- Claim C1: the spec's progress guarantee ("`token` never returns
without advancing") is the stated intent — CodeMirror aborts a mode that
does not advance, and the comment at hypermd.ts lines 84-85 shows the
author guarding against exactly this — but the code violates it: on the
reachable state left by scanning `"- a"`, `"   - b"`, `"\t"`, `""`, the
`token` call on the next line `"x"` returns a tag while the scan
position stays at 0 even though a character remains. -/
theorem c1_progress_stall :
    scenStream.pos = 0 ∧
    0 < scenStream.string.length ∧
    Reachable scenState ∧
    scenRes.stream.pos = 0 ∧
    scenRes.ret = some ("hmd-list-indent hmd-list-indent-3") :=
  ⟨rfl, by decide, scenState_reachable, by decide, by decide⟩

/-- Claim C3: `blankLine` always resets `quoteLevel`, `listSpaceStack`,
the table fields, `nstyle`, `atBeginning` and `prevLineIsEmpty`, and
returns the code-block background tag exactly when `inside` was
`codeFence` on entry (and no classification otherwise). -/
theorem c3_blankLine_reset (s : HState) :
    (blankLine s).1.quoteLevel = 0 ∧
    (blankLine s).1.listSpaceStack = [] ∧
    (blankLine s).1.table = none ∧
    (blankLine s).1.tableCol = 0 ∧
    (blankLine s).1.tableRow = 0 ∧
    (blankLine s).1.nstyle = 0 ∧
    (blankLine s).1.atBeginning = true ∧
    (blankLine s).1.prevLineIsEmpty = true ∧
    (blankLine s).2 = (if s.inside == some InsideV.codeFence
      then some ("line-HyperMD-codeblock line-background-HyperMD-codeblock-bg")
      else none) :=
  ⟨rfl, rfl, rfl, rfl, rfl, rfl, rfl, rfl, rfl⟩

/-- Claim C7: rebuilding `listSpaceStack = [2, 4]` against measured
indentation 2 truncates the stack to `[2]`; against indentation 7 it
pushes one new level of the remaining width, giving `[2, 4, 1]` — both
for the extracted rebuild step and through a full `token` call at the
start of a list-continuation line with that indentation. -/
theorem c7_list_indent_rebuild :
    rebuildStack [2, 4] 2 = [2] ∧
    rebuildStack [2, 4] 7 = [2, 4, 1] ∧
    (token (mkStream ("  - a") none 0)
      { startState with listSpaceStack := [2, 4] }).state.listSpaceStack = [2] ∧
    (token (mkStream ("       - a") none 0)
      { startState with listSpaceStack := [2, 4] }).state.listSpaceStack = [2, 4, 1] :=
  ⟨by decide, by decide, by decide, by decide⟩

def c8Stream : HStream := mkStream ("*a*") none 0

/-- Claim C8: tokenizing `*a*` from the start state toggles the Emphasis
bit on at the opening `*` (one character consumed from position 0),
leaves the mask unchanged over `a` (no classification), toggles the bit
off at the closing `*`, ending with `nstyle = 0`; and each
emphasis-family delimiter toggles by XOR, so a matched pair of identical
delimiters restores the mask. -/
theorem c8_emphasis_toggle :
    (tokIter c8Stream startState 0).state.nstyle = nstyleValues.EM ∧
    (tokIter c8Stream startState 0).stream.pos = 1 ∧
    (tokIter c8Stream startState 1).state.nstyle = nstyleValues.EM ∧
    (tokIter c8Stream startState 1).stream.pos = 2 ∧
    (tokIter c8Stream startState 1).ret = none ∧
    (tokIter c8Stream startState 2).state.nstyle = 0 ∧
    (tokIter c8Stream startState 2).stream.pos = 3 ∧
    (∀ n : Nat, n ^^^ nstyleValues.EM ^^^ nstyleValues.EM = n) ∧
    (∀ n : Nat, n ^^^ nstyleValues.STRONG ^^^ nstyleValues.STRONG = n) ∧
    (∀ n : Nat, n ^^^ nstyleValues.DEL ^^^ nstyleValues.DEL = n) := by
  refine ⟨by decide, by decide, by decide, by decide, by decide, by decide, by decide, ?_, ?_, ?_⟩ <;>
    intro n <;> rw [Nat.xor_assoc, Nat.xor_self, Nat.xor_zero]

def c4FootnoteDef : HStream := mkStream ("[^1]: note") none 0
def c4InlineLink : HStream := mkStream ("[text](url)") none 0
def c4Bare : HStream := mkStream ("please see [page1] to continue") none 0
def c4FootRef : HStream := mkStream ("a [^ref] b") none 0

/-- Claim C4: the link/footnote sub-state transitions on the four
concrete inputs: `[^1]: note` at line start enters FOOTNOTE_NAME on the
`[` and returns to 0 on the call that consumes `]:`; `[text](url)`
enters LINK on `[`, moves to LINK_URL on the call that consumes `]` and
back to 0 on the call that consumes `)`; `please see [page1] to
continue` enters BARELINK on the `[` and returns to 0 after `]`;
`[^ref]` mid-line enters FOOTREF_BEGIN on `[`, FOOTREF after consuming
`^`, and 0 after `]`. -/
theorem c4_link_state_machine :
    (linkMaskOf (tokIter c4FootnoteDef startState 0).state.nstyle = nstyleValues.FOOTNOTE_NAME ∧
     (tokIter c4FootnoteDef startState 0).stream.pos = 1 ∧
     linkMaskOf (tokIter c4FootnoteDef startState 2).state.nstyle = nstyleValues.FOOTNOTE_NAME ∧
     (tokIter c4FootnoteDef startState 2).stream.pos = 3 ∧
     linkMaskOf (tokIter c4FootnoteDef startState 3).state.nstyle = 0 ∧
     (tokIter c4FootnoteDef startState 3).stream.pos = 5) ∧
    (linkMaskOf (tokIter c4InlineLink startState 0).state.nstyle = nstyleValues.LINK ∧
     (tokIter c4InlineLink startState 0).stream.pos = 1 ∧
     linkMaskOf (tokIter c4InlineLink startState 1).state.nstyle = nstyleValues.LINK ∧
     (tokIter c4InlineLink startState 1).stream.pos = 5 ∧
     linkMaskOf (tokIter c4InlineLink startState 2).state.nstyle = nstyleValues.LINK_URL ∧
     (tokIter c4InlineLink startState 2).stream.pos = 6 ∧
     linkMaskOf (tokIter c4InlineLink startState 4).state.nstyle = nstyleValues.LINK_URL ∧
     (tokIter c4InlineLink startState 4).stream.pos = 10 ∧
     linkMaskOf (tokIter c4InlineLink startState 5).state.nstyle = 0 ∧
     (tokIter c4InlineLink startState 5).stream.pos = 11) ∧
    (linkMaskOf (tokIter c4Bare startState 0).state.nstyle = 0 ∧
     (tokIter c4Bare startState 0).stream.pos = 11 ∧
     linkMaskOf (tokIter c4Bare startState 1).state.nstyle = nstyleValues.BARELINK ∧
     (tokIter c4Bare startState 1).stream.pos = 12 ∧
     linkMaskOf (tokIter c4Bare startState 2).state.nstyle = nstyleValues.BARELINK ∧
     (tokIter c4Bare startState 2).stream.pos = 17 ∧
     linkMaskOf (tokIter c4Bare startState 3).state.nstyle = 0 ∧
     (tokIter c4Bare startState 3).stream.pos = 18) ∧
    (linkMaskOf (tokIter c4FootRef startState 1).state.nstyle = nstyleValues.FOOTREF_BEGIN ∧
     (tokIter c4FootRef startState 1).stream.pos = 3 ∧
     linkMaskOf (tokIter c4FootRef startState 2).state.nstyle = nstyleValues.FOOTREF ∧
     (tokIter c4FootRef startState 2).stream.pos = 4 ∧
     linkMaskOf (tokIter c4FootRef startState 4).state.nstyle = 0 ∧
     (tokIter c4FootRef startState 4).stream.pos = 8) := by
  refine ⟨⟨?_, ?_, ?_, ?_, ?_, ?_⟩, ⟨?_, ?_, ?_, ?_, ?_, ?_, ?_, ?_, ?_, ?_⟩,
    ⟨?_, ?_, ?_, ?_, ?_, ?_, ?_, ?_⟩, ⟨?_, ?_, ?_, ?_, ?_, ?_⟩⟩ <;> decide

def c6Table : HStream := mkStream ("|a|b|") (some ("|-|-|")) 0
def c6NoTable : HStream := mkStream ("a|b") (some ("x")) 0

/-- Claim C6: `|a|b|` followed by `|-|-|` establishes a table on the
first `|` — `table` becomes `"T" ++` the current line number and the tag
carries both the table-title tag and the has-separator marker — while
consuming a `|` on `a|b` (no leading pipe, next line not a separator)
returns no classification and leaves all table fields unset. -/
theorem c6_table_detection :
    (token c6Table startState).state.table = some ("T" ++ toString c6Table.line) ∧
    (token c6Table startState).state.table ≠ none ∧
    (token c6Table startState).ret =
      some ("line-HyperMD-table-title line-HyperMD-table-title-has_rowsep line-HyperMD-table_T0 line-HyperMD-table-row line-HyperMD-table-row-0 hmd-table-sep hmd-table-sep-0 ") ∧
    (tokIter c6NoTable startState 0).stream.pos = 1 ∧
    (tokIter c6NoTable startState 1).stream.pos = 2 ∧
    (tokIter c6NoTable startState 1).ret = none ∧
    (tokIter c6NoTable startState 1).state.table = none ∧
    (tokIter c6NoTable startState 1).state.tableCol = 0 ∧
    (tokIter c6NoTable startState 1).state.tableRow = 0 := by
  refine ⟨?_, ?_, ?_, ?_, ?_, ?_, ?_, ?_, ?_⟩ <;> decide

def c5Trimmed : HStream := mkStream (" ---") none 0

/-- Claim C5 (counterexample): the code tests the setext regex against
the raw line, not the trimmed line.  For the line `" ---"` — which after
trimming matches `^(-{3,}|={3,})$`, at column 0, with a non-blank
previous line — the single `token` call consumes the whole line yet
returns no classification at all, so the line is not tagged as a setext
header underline. -/
theorem c5_counterexample :
    setextTest (jsTrim c5Trimmed.string) = true ∧
    startState.prevLineIsEmpty = false ∧
    c5Trimmed.pos = 0 ∧
    (token c5Trimmed startState).stream.pos = c5Trimmed.string.length ∧
    (token c5Trimmed startState).ret = none := by
  refine ⟨?_, ?_, ?_, ?_, ?_⟩ <;> decide

/-- Claim C10 (counterexample): a reachable state (reached through
`token` and `blankLine` from `startState`) in which `inside` is
`listSpace` and `extra` is 2, yet `listSpaceStack` is empty, so the
"required indent width" `listSpaceStack[extra]` is 0, not ≥ 1. -/
theorem c10_counterexample :
    Reachable scenState ∧
    scenState.inside = some InsideV.listSpace ∧
    scenState.extra = HExtra.eidx 2 ∧
    scenState.listSpaceStack = [] ∧
    scenState.listSpaceStack.getD 2 0 = 0 :=
  ⟨scenState_reachable, by decide, by decide, by decide, by decide⟩

/-! ## `copyState` structural independence (claim C2)

Lean values are immutable, so the aliasing content of `.slice()` is
modelled with an explicit store of arrays addressed by index: JS array
identity is the address, `slice()` allocates a fresh address holding the
same elements, and in-place mutation writes through an address. -/

/-- `s.listSpaceStack.slice()` (hypermd.ts line 109) in the store model:
allocate a new address with a copy of the contents. -/
def sliceAlloc (store : List (List Int)) (ref : Nat) : List (List Int) × Nat :=
  (store ++ [store.getD ref []], store.length)

/-- In-place mutation of the array at address `r`. -/
def writeRef (store : List (List Int)) (r : Nat) (v : List Int) : List (List Int) :=
  store.set r v

/-- Claim C2: `copyState` copies every mode-state field unchanged, and
the clone's `listSpaceStack` is structurally independent: it lives at a
fresh address with equal contents, and writing through either address
leaves the array behind the other address unchanged. -/
theorem c2_copyState_independent (s : HState) (store : List (List Int)) (ref : Nat)
    (h : ref < store.length) :
    ((copyState s).atBeginning = s.atBeginning ∧
     (copyState s).quoteLevel = s.quoteLevel ∧
     (copyState s).nstyle = s.nstyle ∧
     (copyState s).table = s.table ∧
     (copyState s).tableCol = s.tableCol ∧
     (copyState s).tableRow = s.tableRow ∧
     (copyState s).inside = s.inside ∧
     (copyState s).listSpaceStack = s.listSpaceStack ∧
     (copyState s).prevLineIsEmpty = s.prevLineIsEmpty ∧
     (copyState s).extra = s.extra) ∧
    (sliceAlloc store ref).2 ≠ ref ∧
    (sliceAlloc store ref).1.getD (sliceAlloc store ref).2 [] = store.getD ref [] ∧
    (∀ v, (writeRef (sliceAlloc store ref).1 (sliceAlloc store ref).2 v).getD ref [] =
      store.getD ref []) ∧
    (∀ v, (writeRef (sliceAlloc store ref).1 ref v).getD (sliceAlloc store ref).2 [] =
      store.getD ref []) := by
  have hne : store.length ≠ ref := by omega
  refine ⟨⟨rfl, rfl, rfl, rfl, rfl, rfl, rfl, rfl, rfl, rfl⟩, hne, ?_, ?_, ?_⟩
  · simp [sliceAlloc, List.getD]
  · intro v
    simp only [sliceAlloc, writeRef, List.getD]
    rw [List.get?_eq_getElem?, List.get?_eq_getElem?, List.getElem?_set_ne hne,
      List.getElem?_append, if_pos h]
  · intro v
    simp only [sliceAlloc, writeRef, List.getD]
    rw [List.get?_eq_getElem?, List.getElem?_set_ne (fun hh => hne hh.symm)]
    simp

/-- Witness for claim C2 at a concrete store. -/
theorem c2_copyState_independent_witness :
    (0 : Nat) < ([[(5 : Int)]] : List (List Int)).length ∧
    (sliceAlloc [[(5 : Int)]] 0).2 ≠ 0 :=
  ⟨by decide, (c2_copyState_independent startState [[(5 : Int)]] 0 (by decide)).2.1⟩

/-! ## The `listSpaceStack` invariant (claim C10)

`token` touches `listSpaceStack` in exactly one place: the rebuild at the
start of a list line.  The lemmas below make that explicit, branch by
branch, and the rebuild itself is shown to preserve positivity of every
element past index 0. -/

theorem tokenMath_stack (st : HStream) (s : HState) (start : Nat) :
    (tokenMath st s start).state.listSpaceStack = s.listSpaceStack := by
  unfold tokenMath
  dsimp only
  repeat' split
  all_goals rfl

theorem tokenFence_stack (st : HStream) (s : HState) (start : Nat) :
    (tokenFence st s start).state.listSpaceStack = s.listSpaceStack := by
  unfold tokenFence
  dsimp only
  repeat' split
  all_goals rfl

theorem listSpaceCore_stack (st : HStream) (s : HState) (ans0 : String)
    (listLevel : Nat) (firstMet : Bool) :
    (listSpaceCore st s ans0 listLevel firstMet).state.listSpaceStack = s.listSpaceStack := by
  unfold listSpaceCore
  dsimp only
  repeat' split
  all_goals rfl

theorem listSpacePart_stack (st : HStream) (s : HState) :
    (listSpacePart st s).state.listSpaceStack = s.listSpaceStack := by
  unfold listSpacePart
  dsimp only
  repeat' split
  all_goals first | rfl | exact listSpaceCore_stack ..

theorem tablePart_stack (st : HStream) (s : HState) :
    (tablePart st s).state.listSpaceStack = s.listSpaceStack := by
  unfold tablePart
  dsimp only
  repeat' split
  all_goals rfl

theorem emphasisPart_stack (st : HStream) (s : HState) (ans : String) :
    (emphasisPart st s ans).state.listSpaceStack = s.listSpaceStack := by
  unfold emphasisPart
  dsimp only
  repeat' split
  all_goals rfl

theorem escapePart_stack (st : HStream) (s : HState) (nstyle : Nat) (ans : String) :
    (escapePart st s nstyle ans).state.listSpaceStack = s.listSpaceStack := by
  unfold escapePart
  dsimp only
  repeat' split
  all_goals first | rfl | exact emphasisPart_stack ..

theorem linkPart_stack (st : HStream) (s : HState) (atB : Bool) (nstyle : Nat) (ans : String) :
    (linkPart st s atB nstyle ans).state.listSpaceStack = s.listSpaceStack := by
  unfold linkPart
  dsimp only
  repeat' split
  all_goals first | rfl | exact escapePart_stack ..

theorem inlinePart_stack (st : HStream) (s : HState) (start : Nat) :
    (inlinePart st s start).state.listSpaceStack = s.listSpaceStack := by
  unfold inlinePart
  dsimp only
  repeat' split
  all_goals first | rfl | exact tablePart_stack .. | exact linkPart_stack ..

/-- The stack of a `lineStart` outcome (either arm). -/
def lsStack : TokRes ⊕ (HStream × HState) → List Int
  | .inl r => r.state.listSpaceStack
  | .inr (_, s) => s.listSpaceStack

theorem lineStart_stack (st : HStream) (s : HState) :
    lsStack (lineStart st s) = s.listSpaceStack ∨
      lsStack (lineStart st s) = rebuildStack s.listSpaceStack (st.indentation : Int) := by
  unfold lineStart
  dsimp only
  repeat' split
  all_goals first | (left; rfl) | (right; rfl)

theorem token_dispatch_stack (st0 : HStream) (s : HState)
    (d : TokRes ⊕ (HStream × HState))
    (hd : d = (if st0.pos == 0 then lineStart st0 s else .inr (st0, s))) :
    (match d with
      | .inl r => r
      | .inr (st, s2) =>
        if s2.inside == some InsideV.listSpace then listSpacePart st s2
        else inlinePart st s2 st0.pos).state.listSpaceStack = s.listSpaceStack ∨
    (match d with
      | .inl r => r
      | .inr (st, s2) =>
        if s2.inside == some InsideV.listSpace then listSpacePart st s2
        else inlinePart st s2 st0.pos).state.listSpaceStack =
      rebuildStack s.listSpaceStack (st0.indentation : Int) := by
  by_cases hpos : st0.pos == 0
  · rw [if_pos hpos] at hd
    have hls := lineStart_stack st0 s
    rw [← hd] at hls
    rcases d with r | ⟨st2, s2⟩
    · exact hls
    · dsimp only
      dsimp only [lsStack] at hls
      split
      · rw [listSpacePart_stack]
        exact hls
      · rw [inlinePart_stack]
        exact hls
  · rw [if_neg hpos] at hd
    subst hd
    dsimp only
    split
    · exact Or.inl (listSpacePart_stack ..)
    · exact Or.inl (inlinePart_stack ..)

theorem token_stack (st : HStream) (s : HState) :
    (token st s).state.listSpaceStack = s.listSpaceStack ∨
      (token st s).state.listSpaceStack = rebuildStack s.listSpaceStack (st.indentation : Int) := by
  unfold token
  dsimp only
  rcases hin : s.inside with _ | iv
  · exact token_dispatch_stack st { s with inside := none, combineTokens := none } _ rfl
  · cases iv
    · exact token_dispatch_stack st
        { s with inside := some InsideV.nothing, combineTokens := none } _ rfl
    · exact Or.inl (tokenMath_stack ..)
    · exact token_dispatch_stack st
        { s with inside := some InsideV.listSpace, combineTokens := none } _ rfl
    · exact Or.inl (tokenFence_stack ..)
    · exact token_dispatch_stack st
        { s with inside := some InsideV.tableTitleSep, combineTokens := none } _ rfl

/-- The invariant of claim C10: every element of the list-indent stack
past index 0 is strictly positive. -/
def stackOK (l : List Int) : Prop := ∀ x ∈ l.tail, 0 < x

theorem stackOK_take (l : List Int) (j : Nat) (h : stackOK l) : stackOK (l.take j) := by
  cases l with
  | nil => simp [stackOK]
  | cons a t =>
    cases j with
    | zero => simp [stackOK]
    | succ j =>
      intro x hx
      simp only [List.take_succ_cons, List.tail_cons] at hx
      exact h x (List.mem_of_mem_take hx)

theorem stackOK_append_pos (l : List Int) (v : Int) (h : stackOK l) (hv : 0 < v) :
    stackOK (l ++ [v]) := by
  cases l with
  | nil => simpa [stackOK] using hv
  | cons a t =>
    intro x hx
    simp only [List.cons_append, List.tail_cons, List.mem_append, List.mem_singleton] at hx
    rcases hx with hx | rfl
    · exact h x hx
    · exact hv

theorem rebuildWalk_shape (stack : List Int) (ind : Int) (i fuel : Nat) :
    (rebuildWalk stack ind i fuel).1 = stack ∨
      ∃ j, (rebuildWalk stack ind i fuel).1 = stack.take j := by
  induction fuel generalizing ind i with
  | zero => exact Or.inl rfl
  | succ fuel ih =>
    unfold rebuildWalk
    split
    · split
      · exact ih ..
      · exact Or.inr ⟨i, rfl⟩
    · exact Or.inl rfl

theorem rebuildStack_stackOK (stack : List Int) (ind : Int) (h : stackOK stack) :
    stackOK (rebuildStack stack ind) := by
  have hw : ∀ k, stackOK (rebuildWalk stack ind k (stack.length + 1)).1 := by
    intro k
    rcases rebuildWalk_shape stack ind k (stack.length + 1) with hs | ⟨j, hs⟩
    · rw [hs]; exact h
    · rw [hs]; exact stackOK_take _ _ h
  unfold rebuildStack
  dsimp only
  repeat' split
  all_goals first
    | (intro x hx; simp at hx)
    | (exact stackOK_append_pos _ _ (hw _) (by assumption))
    | exact hw _

theorem stackOK_getD (l : List Int) (h : stackOK l) :
    ∀ i, 1 ≤ i → i < l.length → 1 ≤ l.getD i 0 := by
  intro i h1 h2
  match l, i, h1 with
  | a :: t, j + 1, _ =>
    have hj : j < t.length := by simpa using h2
    have : (a :: t).getD (j + 1) 0 = t.getD j 0 := rfl
    rw [this, List.getD_eq_getElem t 0 hj]
    have := h (t[j]) (by simpa using List.getElem_mem hj)
    omega

/-- Claim C10 (amended): in every reachable state, every element of
`listSpaceStack` at index ≥ 1 is strictly positive (only element 0 may
be 0), so whenever the listSpace scanner's index `extra` satisfies
`1 ≤ extra < length listSpaceStack`, the required indent width
`listSpaceStack[extra]` is at least 1.  (The claim's original version,
without the `extra < length` bound, fails: see the counterexample.) -/
theorem c10_stack_tail_positive (s : HState) (h : Reachable s) :
    stackOK s.listSpaceStack ∧
    (∀ i, 1 ≤ i → i < s.listSpaceStack.length → 1 ≤ s.listSpaceStack.getD i 0) ∧
    (∀ i, s.extra = HExtra.eidx i → 1 ≤ i → i < s.listSpaceStack.length →
      1 ≤ s.listSpaceStack.getD i 0) := by
  have hOK : stackOK s.listSpaceStack := by
    induction h with
    | start => intro x hx; simp [startState] at hx
    | tok st _ ih =>
      rename_i s0 _
      rcases token_stack st s0 with hs | hs
      · rw [hs]; exact ih
      · rw [hs]; exact rebuildStack_stackOK _ _ ih
    | blank _ ih => intro x hx; simp [blankLine] at hx
    | copy _ ih => exact ih
  exact ⟨hOK, stackOK_getD _ hOK, fun i _ => stackOK_getD _ hOK i⟩

/-- Witness for the amended claim C10 at the start state. -/
theorem c10_stack_tail_positive_witness :
    stackOK startState.listSpaceStack :=
  (c10_stack_tail_positive startState Reachable.start).1

/-! ## Frame property of `nstyle` (claim C9)

The link sub-state (`nstyle & 0xFF00`) and the standalone style bits
(`nstyle & 0xFF`) are updated by disjoint branches of `token`, each of
which returns immediately; the bit lemmas below show each update leaves
the other axis untouched. -/

theorem and_masked_or (n v m : Nat) (h : v &&& m = 0) : (n ||| v) &&& m = n &&& m := by
  apply Nat.eq_of_testBit_eq
  intro i
  have hv : (v.testBit i && m.testBit i) = false := by
    rw [← Nat.testBit_and, h, Nat.zero_testBit]
  simp only [Nat.testBit_and, Nat.testBit_or]
  cases hvi : v.testBit i <;> cases hmi : m.testBit i <;> simp_all

theorem and_masked_xor (n v m : Nat) (h : v &&& m = 0) : (n ^^^ v) &&& m = n &&& m := by
  apply Nat.eq_of_testBit_eq
  intro i
  have hv : (v.testBit i && m.testBit i) = false := by
    rw [← Nat.testBit_and, h, Nat.zero_testBit]
  simp only [Nat.testBit_and, Nat.testBit_xor]
  cases hvi : v.testBit i <;> cases hmi : m.testBit i <;> simp_all

theorem and_keep_low (n : Nat) : (n &&& 0xFFFF00FF) &&& 0xFF = n &&& 0xFF := by
  rw [Nat.and_assoc]
  have hm : ((0xFFFF00FF : Nat) &&& 0xFF) = 0xFF := by decide
  rw [hm]

theorem and_eight_eq (n : Nat) (h : n &&& 8 ≠ 0) : n &&& 8 = 8 := by
  have ha := Nat.and_two_pow n 3
  rcases hb : n.testBit 3
  · rw [hb] at ha
    simp only [Bool.toNat_false, Nat.zero_mul] at ha
    norm_num at ha
    exact absurd ha h
  · rw [hb] at ha
    simpa using ha

theorem div_eight_odd (n : Nat) (h : n &&& 8 = 8) : n / 8 % 2 = 1 := by
  have hdm := Nat.testBit_to_div_mod (x := n) (i := 3)
  have h8 : n.testBit 3 = true := by
    have ha := Nat.and_two_pow n 3
    rcases hb : n.testBit 3
    · rw [hb] at ha
      simp only [Bool.toNat_false, Nat.zero_mul] at ha
      norm_num at ha
      omega
    · rfl
  rw [h8] at hdm
  simpa using hdm.symm

theorem and_ff00_low_irrelevant (q a b : Nat) (ha : a < 16) (hb : b < 16) :
    (16 * q + a) &&& 0xFF00 = (16 * q + b) &&& 0xFF00 := by
  apply Nat.eq_of_testBit_eq
  intro i
  simp only [Nat.testBit_and]
  rcases Nat.lt_or_ge i 16 with hi | hi
  · interval_cases i <;>
      simp only [Nat.testBit_to_div_mod, decide_eq_decide] <;>
      norm_num <;> omega
  · have hm : (0xFF00 : Nat).testBit i = false := by
      apply Nat.testBit_lt_two_pow
      calc (0xFF00 : Nat) < 2 ^ 16 := by norm_num
        _ ≤ 2 ^ i := Nat.pow_le_pow_right (by norm_num) hi
    simp [hm]

/-- Clearing the escape bit by subtraction does not change the link
byte. -/
theorem sub_escape_link (n : Nat) (h : n &&& 8 = 8) :
    (n - 8) &&& 0xFF00 = n &&& 0xFF00 := by
  have hdm : n / 8 % 2 = 1 := div_eight_odd n h
  have h8 : n % 8 < 8 := Nat.mod_lt _ (by norm_num)
  have hd2 : n - 8 = 16 * (n / 16) + n % 8 := by omega
  have hd3 : 16 * (n / 16) + (8 + n % 8) = n := by omega
  calc (n - 8) &&& 0xFF00 = (16 * (n / 16) + n % 8) &&& 0xFF00 := by rw [hd2]
    _ = (16 * (n / 16) + (8 + n % 8)) &&& 0xFF00 :=
        and_ff00_low_irrelevant _ _ _ (by omega) (by omega)
    _ = n &&& 0xFF00 := by rw [hd3]

theorem emphasisPart_link (st : HStream) (s : HState) (ans : String) :
    linkMaskOf (emphasisPart st s ans).state.nstyle = linkMaskOf s.nstyle := by
  unfold emphasisPart linkMaskOf
  dsimp only
  repeat' split
  all_goals first
    | rfl
    | exact and_masked_xor s.nstyle nstyleValues.STRONG 0xFF00 (by decide)
    | exact and_masked_xor s.nstyle nstyleValues.EM 0xFF00 (by decide)
    | exact and_masked_xor s.nstyle nstyleValues.DEL 0xFF00 (by decide)

theorem escapePart_link (st : HStream) (s : HState) (nstyle : Nat) (ans : String)
    (hn : nstyle = s.nstyle) :
    linkMaskOf (escapePart st s nstyle ans).state.nstyle = linkMaskOf s.nstyle := by
  unfold escapePart linkMaskOf
  dsimp only
  split
  · rename_i h8
    subst hn
    exact sub_escape_link s.nstyle (and_eight_eq _ (by simpa using h8))
  · split
    · subst hn
      exact and_masked_or s.nstyle nstyleValues.ESCAPE 0xFF00 (by decide)
    · exact emphasisPart_link ..

theorem linkPart_frame (st : HStream) (s : HState) (atB : Bool) (nstyle : Nat) (ans : String)
    (hn : nstyle = s.nstyle) :
    styleMaskOf (linkPart st s atB nstyle ans).state.nstyle = styleMaskOf s.nstyle ∨
      linkMaskOf (linkPart st s atB nstyle ans).state.nstyle = linkMaskOf s.nstyle := by
  subst hn
  unfold linkPart
  dsimp only
  split
  · split
    · left
      unfold styleMaskOf
      dsimp only
      repeat' split
      all_goals first
        | exact and_masked_or s.nstyle nstyleValues.FOOTNOTE_NAME 0xFF (by decide)
        | exact and_masked_or s.nstyle nstyleValues.FOOTREF_BEGIN 0xFF (by decide)
        | exact and_masked_or s.nstyle nstyleValues.BARELINK 0xFF (by decide)
        | exact and_masked_or s.nstyle nstyleValues.LINK 0xFF (by decide)
    · exact Or.inr (escapePart_link st s s.nstyle ans rfl)
  · split
    · rename_i nl heq
      left
      unfold styleMaskOf
      dsimp only
      have hnl : nl &&& 0xFF = 0 := by
        repeat' split at heq
        all_goals first
          | (injection heq with hv; subst hv; decide)
          | exact Option.noConfusion heq
      rw [and_masked_or _ nl 0xFF hnl, and_keep_low]
    · exact Or.inr (escapePart_link _ _ _ _ rfl)

theorem tablePart_nstyle (st : HStream) (s : HState) :
    (tablePart st s).state.nstyle = s.nstyle := by
  unfold tablePart
  dsimp only
  repeat' split
  all_goals rfl

theorem inlinePart_frame (st : HStream) (s : HState) (start : Nat) :
    styleMaskOf (inlinePart st s start).state.nstyle = styleMaskOf s.nstyle ∨
      linkMaskOf (inlinePart st s start).state.nstyle = linkMaskOf s.nstyle := by
  unfold inlinePart
  dsimp only
  repeat' split
  all_goals first
    | exact Or.inl rfl
    | (left; rw [tablePart_nstyle])
    | exact linkPart_frame _ _ _ _ _ rfl

theorem listSpacePart_nstyle (st : HStream) (s : HState) :
    (listSpacePart st s).state.nstyle = s.nstyle := by
  unfold listSpacePart listSpaceCore
  dsimp only
  repeat' split
  all_goals rfl

/-- The state of a `lineStart` outcome (either arm). -/
def lsState : TokRes ⊕ (HStream × HState) → HState
  | .inl r => r.state
  | .inr (_, s) => s

theorem lineStart_nstyle (st : HStream) (s : HState) :
    (lsState (lineStart st s)).nstyle = s.nstyle := by
  unfold lineStart
  dsimp only
  repeat' split
  all_goals rfl

theorem tokenMath_nstyle (st : HStream) (s : HState) (start : Nat) :
    (tokenMath st s start).state.nstyle = s.nstyle := by
  unfold tokenMath
  dsimp only
  repeat' split
  all_goals rfl

theorem tokenFence_nstyle (st : HStream) (s : HState) (start : Nat) :
    (tokenFence st s start).state.nstyle = s.nstyle := by
  unfold tokenFence
  dsimp only
  repeat' split
  all_goals rfl

theorem token_dispatch_frame (st0 : HStream) (s : HState)
    (d : TokRes ⊕ (HStream × HState))
    (hd : d = (if st0.pos == 0 then lineStart st0 s else .inr (st0, s))) :
    styleMaskOf (match d with
      | .inl r => r
      | .inr (st, s2) =>
        if s2.inside == some InsideV.listSpace then listSpacePart st s2
        else inlinePart st s2 st0.pos).state.nstyle = styleMaskOf s.nstyle ∨
    linkMaskOf (match d with
      | .inl r => r
      | .inr (st, s2) =>
        if s2.inside == some InsideV.listSpace then listSpacePart st s2
        else inlinePart st s2 st0.pos).state.nstyle = linkMaskOf s.nstyle := by
  by_cases hpos : st0.pos == 0
  · rw [if_pos hpos] at hd
    have hns := lineStart_nstyle st0 s
    rw [← hd] at hns
    rcases d with r | ⟨st2, s2⟩
    · dsimp only [lsState] at hns
      rw [hns]
      exact Or.inl rfl
    · dsimp only [lsState] at hns
      dsimp only
      split
      · rw [listSpacePart_nstyle, hns]
        exact Or.inl rfl
      · rcases inlinePart_frame st2 s2 st0.pos with hf | hf
        · rw [hf, hns]
          exact Or.inl rfl
        · rw [hf, hns]
          exact Or.inr rfl
  · rw [if_neg hpos] at hd
    subst hd
    dsimp only
    split
    · rw [listSpacePart_nstyle]
      exact Or.inl rfl
    · exact inlinePart_frame ..

/-- Claim C9: within any single `token` call, the link sub-state
(`nstyle & 0xFF00`) and the standalone style bits (`nstyle & 0xFF`,
holding Strikethrough/Emphasis/Strong/Escape) change independently: at
least one of the two masks is unchanged by the call, so a call that
changes the link sub-state leaves all style bits as they were, a call
that toggles a style bit or consumes an escaped character leaves the
link sub-state as it was, and no call modifies both axes. -/
theorem c9_link_style_frame (st : HStream) (s : HState) :
    styleMaskOf (token st s).state.nstyle = styleMaskOf s.nstyle ∨
      linkMaskOf (token st s).state.nstyle = linkMaskOf s.nstyle := by
  unfold token
  dsimp only
  rcases hin : s.inside with _ | iv
  · exact token_dispatch_frame st { s with inside := none, combineTokens := none } _ rfl
  · cases iv
    · exact token_dispatch_frame st
        { s with inside := some InsideV.nothing, combineTokens := none } _ rfl
    · left
      rw [tokenMath_nstyle]
    · exact token_dispatch_frame st
        { s with inside := some InsideV.listSpace, combineTokens := none } _ rfl
    · left
      rw [tokenFence_nstyle]
    · exact token_dispatch_frame st
        { s with inside := some InsideV.tableTitleSep, combineTokens := none } _ rfl

/-! ## Setext underline (claim C5, amended) -/

theorem setext_shape (cs : List Char) (h : setextTest cs = true) :
    ∃ c r, cs = c :: r ∧ (c = '-' ∨ c = '=') := by
  cases cs with
  | nil => simp [setextTest] at h
  | cons c r =>
    refine ⟨c, r, rfl, ?_⟩
    unfold setextTest at h
    simp only [Bool.or_eq_true, Bool.and_eq_true, List.all_cons] at h
    rcases h with ⟨_, hc, _⟩ | ⟨_, hc, _⟩
    · exact Or.inl (by simpa using hc)
    · exact Or.inr (by simpa using hc)

/-- Claim C5 (amended): when `token` is called at column 0, the raw
(untrimmed) line matches `^(-{3,}|={3,})$`, the previous line was
non-blank and the block sub-mode is neither Math nor CodeFence, the call
consumes the whole line and tags it as a setext header underline, level
1 when the line is made of `=` and level 2 when it is made of `-`. -/
theorem c5_setext_underline (st : HStream) (s : HState)
    (hpos : st.pos = 0)
    (hsetext : setextTest st.string = true)
    (hprev : s.prevLineIsEmpty = false)
    (hmath : s.inside ≠ some InsideV.math)
    (hfence : s.inside ≠ some InsideV.codeFence) :
    (token st s).ret =
      some ("formatting line-HyperMD-header-line line-HyperMD-header-line-" ++
        toString (if st.string.head? == some '=' then 1 else 2)) ∧
    (token st s).stream.pos = st.string.length := by
  obtain ⟨c, r, hcs, hc⟩ := setext_shape st.string hsetext
  have hrest : st.rest = st.string := by
    unfold HStream.rest
    rw [hpos]
    exact List.drop_zero _
  have hfo : fenceOpenMatch st.rest = none := by
    rw [hrest, hcs]
    rcases hc with rfl | rfl <;> rfl
  have hind : st.indentation = 0 := by
    unfold HStream.indentation indentationOf
    rw [hcs]
    rcases hc with rfl | rfl <;> rfl
  have main : ∀ s2 : HState, s2.prevLineIsEmpty = false →
      (match lineStart st s2 with
        | .inl r => r
        | .inr (st2, s3) =>
          if s3.inside == some InsideV.listSpace then listSpacePart st2 s3
          else inlinePart st2 s3 st.pos).ret =
        some ("formatting line-HyperMD-header-line line-HyperMD-header-line-" ++
          toString (if st.string.head? == some '=' then 1 else 2)) ∧
      (match lineStart st s2 with
        | .inl r => r
        | .inr (st2, s3) =>
          if s3.inside == some InsideV.listSpace then listSpacePart st2 s3
          else inlinePart st2 s3 st.pos).stream.pos = st.string.length := by
    intro s2 hprev2
    unfold lineStart
    have htm : st.tryMatch fenceOpenMatch = (false, st) := by
      unfold HStream.tryMatch
      rw [hfo]
    simp only [htm, hind, hsetext, hprev2, HStream.skipToEnd]
    norm_num
  unfold token
  have hpz : (st.pos == 0) = true := by simp [hpos]
  rcases hin : s.inside with _ | iv
  · simp only [hpz, if_pos]
    exact main _ hprev
  · cases iv
    · simp only [hpz, if_pos]
      exact main _ hprev
    · exact absurd hin hmath
    · simp only [hpz, if_pos]
      exact main _ hprev
    · exact absurd hin hfence
    · simp only [hpz, if_pos]
      exact main _ hprev

/-- Witness for the amended claim C5 on the line `---`. -/
theorem c5_setext_underline_witness :
    ((mkStream ("---") none 0).pos = 0 ∧
     setextTest (mkStream ("---") none 0).string = true ∧
     startState.prevLineIsEmpty = false ∧
     startState.inside ≠ some InsideV.math ∧
     startState.inside ≠ some InsideV.codeFence) ∧
    (token (mkStream ("---") none 0) startState).ret =
      some ("formatting line-HyperMD-header-line line-HyperMD-header-line-" ++
        toString (if (mkStream ("---") none 0).string.head? == some '=' then 1 else 2)) ∧
    (token (mkStream ("---") none 0) startState).stream.pos =
      (mkStream ("---") none 0).string.length :=
  ⟨⟨rfl, by decide, rfl, by decide, by decide⟩,
   c5_setext_underline (mkStream ("---") none 0) startState rfl (by decide) rfl
     (by decide) (by decide)⟩

end HyperMD
